import Mathlib

/-!
Verification development for the Upside Maximizer dashboard.

The repository consists of a React client (src/App.js) and a scheduled batch
price-update script (.github/scripts/update-prices.js).  The core logic is the
ratcheting exit-threshold computation, the per-position price application
(manual client update and batch update), position admission, the quote-fetch
pipeline, the per-user persistence of a batch run, and the client-side
volatility estimator.

Modelling conventions:
- JavaScript numbers are modelled as exact rationals; NaN is modelled
  explicitly by the JsNum type where the code can produce or branch on it.
- Falsy checks on numbers (0, NaN) are modelled by JsNum.truthy.
- Form fields (strings fed to parseFloat) are modelled by FieldVal:
  an empty string, a fully numeric string, or a non-numeric string.
- Asynchronous provider calls are modelled as pure oracles; an oracle is
  indexed by an attempt counter so that the number of fetch attempts the
  script performs per symbol is observable.
-/

namespace UpsideMaximizer

/-- A JavaScript number: either NaN or an exact rational value. -/
inductive JsNum where
  | nan : JsNum
  | num (q : ℚ) : JsNum
deriving DecidableEq

/-- JavaScript truthiness of a number: NaN and 0 are falsy. -/
def JsNum.truthy : JsNum → Bool
  | JsNum.nan => false
  | JsNum.num q => decide (q ≠ 0)

/-- JavaScript comparison a < b: false whenever either side is NaN. -/
def jsLt : JsNum → JsNum → Bool
  | JsNum.num a, JsNum.num b => decide (a < b)
  | _, _ => false

/-- JavaScript multiplication by 2, propagating NaN. -/
def jsMulTwo : JsNum → JsNum
  | JsNum.num a => JsNum.num (a * 2)
  | JsNum.nan => JsNum.nan

/-- One tracked position, as stored in a portfolio document.  Fields are the
ones read or written by the modelled operations; numeric fields carry the
rational value of the stored JavaScript number. -/
structure Stock where
  symbol : String
  entryPrice : ℚ
  currentPrice : ℚ
  highestClose : ℚ
  highestCloseDate : String
  typicalVolatility : ℚ
  volatilityMultiplier : ℚ
  triggered : Bool
deriving DecidableEq

/-- An alert record created by the client updateStockPrice when a position
first breaches its threshold (symbol plus the numbers interpolated into the
message). -/
structure ClientAlert where
  symbol : String
  price : ℚ
  stop : ℚ
deriving DecidableEq

/-- calculateUMPrice from .github/scripts/update-prices.js (lines 26 to 29):
threshold = highestClose * (1 - typicalVol * multiplier / 100). -/
def calculateUMPrice (highestClose typicalVol multiplier : ℚ) : ℚ :=
  let volatilityDecline := typicalVol * multiplier
  highestClose * (1 - volatilityDecline / 100)

/-- calculateStopLoss from src/App.js (lines 76 to 79), the client copy of the
same formula. -/
def calculateStopLoss (highestClose typicalVol multiplier : ℚ) : ℚ :=
  let volatilityDecline := typicalVol * multiplier
  highestClose * (1 - volatilityDecline / 100)

/-- updateStockPrice from src/App.js (lines 130 to 165), restricted to the one
position whose id matches (the stocks.map branch with stock.id equal to id).
The price argument is the parseFloat result of the raw input; the function
rejects NaN or a non-positive price with no mutation, otherwise raises the
high-water mark, recomputes the stop and, on a first breach, flips triggered
and prepends one alert. -/
def updateStockPrice (stock : Stock) (alerts : List ClientAlert) (price : JsNum) :
    Stock × List ClientAlert :=
  match price with
  | JsNum.nan => (stock, alerts)
  | JsNum.num p =>
    if p ≤ 0 then (stock, alerts)
    else
      let newHighest := max stock.highestClose p
      let stopLoss := calculateStopLoss newHighest stock.typicalVolatility
          stock.volatilityMultiplier
      if p ≤ stopLoss ∧ stock.triggered = false then
        ({ stock with currentPrice := p, highestClose := newHighest, triggered := true },
          { symbol := stock.symbol, price := p, stop := stopLoss } :: alerts)
      else
        ({ stock with currentPrice := p, highestClose := newHighest }, alerts)

/-- The per-position body of the updatedStocks map in updateAllPrices,
.github/scripts/update-prices.js (lines 317 to 349).  The newPrice argument is
the priceMap lookup result (none models undefined, in which case the position
is left untouched).  With a fetched price the script sets currentPrice, raises
highestClose and its date when the price strictly exceeds the stored high
(the expression newPrice > (stock.highestClose || 0) equals
newPrice > stock.highestClose for every number-valued highestClose), then
flips triggered and records a triggeredStocks entry on a first breach.  The
second component is that entry: the mutated stock copy and the umPrice. -/
def batchUpdateStock (today : String) (stock : Stock) (newPrice : Option ℚ) :
    Stock × Option (Stock × ℚ) :=
  match newPrice with
  | none => (stock, none)
  | some p =>
    let s1 := { stock with currentPrice := p }
    let s2 := if s1.highestClose < p then
        { s1 with highestClose := p, highestCloseDate := today } else s1
    let umPrice := calculateUMPrice s2.highestClose s2.typicalVolatility
        s2.volatilityMultiplier
    if p ≤ umPrice ∧ s2.triggered = false then
      let s3 := { s2 with triggered := true }
      (s3, some (s3, umPrice))
    else (s2, none)

/-- One application of a new price to a position, through either path of the
system: a client updateStockPrice call or a batch updateAllPrices run. -/
inductive UpdateCall where
  | client (price : JsNum) : UpdateCall
  | batch (today : String) (newPrice : Option ℚ) : UpdateCall

/-- Execute one call against a position and count the alerts it emits
(client: alerts prepended to the list; batch: triggeredStocks entries). -/
def callEmits (stock : Stock) : UpdateCall → Stock × Nat
  | UpdateCall.client price =>
    let r := updateStockPrice stock [] price
    (r.1, r.2.length)
  | UpdateCall.batch today newPrice =>
    let r := batchUpdateStock today stock newPrice
    (r.1, if r.2.isSome then 1 else 0)

/-- Execute a sequence of price applications against one position, returning
the final position and the total number of alerts emitted along the way. -/
def runCalls (stock : Stock) : List UpdateCall → Stock × Nat
  | [] => (stock, 0)
  | c :: cs =>
    let r := callEmits stock c
    let rest := runCalls r.1 cs
    (rest.1, r.2 + rest.2)

/-- A reply of the Finnhub quote endpoint as seen after JSON.parse: a payload
with a numeric field c, an explicit rate-limit reply (which carries no usable
c field), an empty-data reply, or a network error.  The last three all leave
the parsed object without a positive c field. -/
inductive FinnResp where
  | ok (c : JsNum) : FinnResp
  | rateLimited : FinnResp
  | noData : FinnResp
  | netError : FinnResp
deriving DecidableEq

/-- fetchPriceFinnhub from update-prices.js (lines 163 to 184): resolves the
field c when json.c is truthy and json.c > 0, otherwise resolves null (also on
parse or network errors). -/
def fetchPriceFinnhub : FinnResp → Option JsNum
  | FinnResp.ok c => if c.truthy && jsLt (JsNum.num 0) c then some c else none
  | _ => none

/-- A reply of the Alpha Vantage GLOBAL_QUOTE endpoint: a Global Quote object
whose price key holds a truthy (non-empty) string parsing to the given JsNum
(some v), or holds no truthy price string (none); or no Global Quote object at
all, which also covers the rate-limit Note replies; or a network error. -/
inductive AVResp where
  | quote (price : Option JsNum) : AVResp
  | noQuote : AVResp
  | netError : AVResp
deriving DecidableEq

/-- fetchPriceAlphaVantage from update-prices.js (lines 187 to 208): resolves
parseFloat of the price string when the Global Quote object and a truthy price
string are present, otherwise resolves null.  Note that the guard tests the
string, not the parsed number, so a parsed 0, a negative value or NaN are all
resolved. -/
def fetchPriceAlphaVantage : AVResp → Option JsNum
  | AVResp.quote (some v) => some v
  | _ => none

/-- JavaScript truthiness of a possibly-null number. -/
def jsTruthyOpt : Option JsNum → Bool
  | some v => v.truthy
  | none => false

/-- fetchPrice from update-prices.js (lines 211 to 232): try Finnhub, return
its price if truthy; otherwise, when an Alpha Vantage key is configured, try
Alpha Vantage once and return its price if truthy; otherwise null. -/
def fetchPrice (fh : FinnResp) (avKeySet : Bool) (av : AVResp) : Option JsNum :=
  let price := fetchPriceFinnhub fh
  if jsTruthyOpt price then price
  else if avKeySet then
    let price2 := fetchPriceAlphaVantage av
    if jsTruthyOpt price2 then price2 else none
  else none

/-- The symbol-fetch loop of updateAllPrices (lines 289 to 305): one fetchPrice
call per symbol in order, with a fixed one-second delay between symbols, and a
priceMap entry for each non-null result.  The provider oracles are indexed by
an attempt counter; the loop only ever consults attempt 0 for each symbol,
because the script contains no retry. -/
def buildPriceMap (symbols : List String) (fh : String → Nat → FinnResp)
    (avKeySet : Bool) (av : String → Nat → AVResp) : List (String × JsNum) :=
  match symbols with
  | [] => []
  | sym :: rest =>
    (match fetchPrice (fh sym 0) avKeySet (av sym 0) with
      | some p => [(sym, p)]
      | none => []) ++ buildPriceMap rest fh avKeySet av

/-- One portfolio document in the portfolios collection: the stored stocks,
the alert history written by the client, the client-written lastUpdate stamp
and the batch-written lastUpdated stamp (two distinct Firestore fields). -/
structure PortfolioDoc where
  stocks : List Stock
  alerts : List ClientAlert
  lastUpdate : Option String
  lastUpdated : Option String
deriving DecidableEq

/-- The toUpperCase method on a symbol string, character by character. -/
def jsToUpper (s : String) : String := String.mk (s.data.map Char.toUpper)

/-- priceMap.get(stock.symbol?.toUpperCase()) from updateAllPrices: the price
map is keyed by upper-cased symbols. -/
def lookupPrice (priceMap : List (String × ℚ)) (sym : String) : Option ℚ :=
  List.lookup (jsToUpper sym) priceMap

/-- The per-user portion of updateAllPrices (lines 310 to 360): map every
stored stock through the batch update with its fetched price, collect the
triggeredStocks entries, and, when at least one symbol had a fetched price,
write the document back with the updated stocks and the server timestamp.
The Firestore update call (lines 353 to 356) lists only the stocks and
lastUpdated fields, so every other stored field, the alerts list included, is
left as it was.  Returns the stored document after the run, the
triggeredStocks list and the updated flag. -/
def updateUserPortfolio (today serverTs : String) (doc : PortfolioDoc)
    (priceMap : List (String × ℚ)) : PortfolioDoc × List (Stock × ℚ) × Bool :=
  let results := doc.stocks.map fun s =>
    batchUpdateStock today s (lookupPrice priceMap s.symbol)
  let updatedStocks := results.map Prod.fst
  let triggeredStocks := results.filterMap Prod.snd
  let updated := doc.stocks.any fun s => (lookupPrice priceMap s.symbol).isSome
  if updated then
    ({ doc with stocks := updatedStocks, lastUpdated := some serverTs },
      triggeredStocks, true)
  else (doc, triggeredStocks, false)

/-- The value of a text form field as fed to parseFloat: an empty string
(falsy), a fully numeric string with the given value, or a non-empty
non-numeric string (truthy, parsing to NaN). -/
inductive FieldVal where
  | emptyStr : FieldVal
  | numeric (q : ℚ) : FieldVal
  | nonNumericStr : FieldVal
deriving DecidableEq

/-- JavaScript truthiness of a form string: only the empty string is falsy. -/
def FieldVal.truthy : FieldVal → Bool
  | FieldVal.emptyStr => false
  | _ => true

/-- parseFloat on a form field: the value of a numeric string, NaN otherwise
(parseFloat of an empty or non-numeric string is NaN). -/
def parseFloatField : FieldVal → JsNum
  | FieldVal.numeric q => JsNum.num q
  | _ => JsNum.nan

/-- The newStock form state feeding addStock. -/
structure NewStockForm where
  symbol : FieldVal
  entryPrice : FieldVal
  currentPrice : FieldVal
  typicalVolatility : FieldVal
  volatilityMultiplier : FieldVal

/-- A stock object as built by addStock, before any later update: its numeric
fields are raw parseFloat results and may be NaN. -/
structure RawStock where
  symbol : FieldVal
  entryPrice : JsNum
  currentPrice : JsNum
  highestClose : JsNum
  typicalVolatility : JsNum
  volatilityMultiplier : JsNum
  triggered : Bool
deriving DecidableEq

/-- addStock from src/App.js (lines 81 to 128): reject when a required field
is an empty string; parse the prices; reject when current < entry * 2 (a
comparison that is false whenever either side is NaN); otherwise append the
new stock and save.  Returns none on rejection (no mutation) and the new
stocks list on admission. -/
def addStock (form : NewStockForm) (stocks : List RawStock) :
    Option (List RawStock) :=
  if ¬(form.symbol.truthy = true ∧ form.entryPrice.truthy = true ∧
      form.currentPrice.truthy = true) then none
  else
    let entry := parseFloatField form.entryPrice
    let current := parseFloatField form.currentPrice
    if jsLt current (jsMulTwo entry) = true then none
    else
      let newRec : RawStock :=
        { symbol := form.symbol
          entryPrice := entry
          currentPrice := current
          highestClose := current
          typicalVolatility := parseFloatField form.typicalVolatility
          volatilityMultiplier := parseFloatField form.volatilityMultiplier
          triggered := false }
      some (stocks ++ [newRec])

/-- Insert a value into an ascending list, keeping it ascending. -/
def insertSorted (x : ℚ) : List ℚ → List ℚ
  | [] => [x]
  | y :: ys => if x ≤ y then x :: y :: ys else y :: insertSorted x ys

/-- Ascending sort, modelling pullbacks.sort((a, b) => a.decline - b.decline).
Equal elements may be ordered differently than by the JavaScript sort, which
cannot change the multiset of values in any contiguous slice. -/
def sortAsc : List ℚ → List ℚ
  | [] => []
  | x :: xs => insertSorted x (sortAsc xs)

/-- The pullback scan of analyzeVolatility, src/App.js (lines 516 to 533),
started with a running high: a price above the high replaces it; a price
strictly below it whose decline percentage exceeds 2 contributes a pullback.
Only the decline magnitudes are kept, which is all the later computation
reads. -/
def pullbacksAux (currentHigh : ℚ) : List ℚ → List ℚ
  | [] => []
  | p :: rest =>
    if currentHigh < p then pullbacksAux p rest
    else if p < currentHigh then
      let decline := (currentHigh - p) / currentHigh * 100
      if 2 < decline then decline :: pullbacksAux currentHigh rest
      else pullbacksAux currentHigh rest
    else pullbacksAux currentHigh rest

/-- All pullback magnitudes of a close-price series: the scan starts with the
first price as the running high. -/
def pullbacks : List ℚ → List ℚ
  | [] => []
  | p :: rest => pullbacksAux p rest

/-- The suggested typicalVolatility of analyzeVolatility, src/App.js (lines
535 to 555): none when no pullbacks were found (the early return); otherwise
the mean of the middle-quartile slice of the ascending pullback list, where
q1 = floor(n * 0.25) and q3 = floor(n * 0.75).  When that slice is empty the
JavaScript mean is 0 / 0, that is NaN. -/
def analyzeRecommended (prices : List ℚ) : Option JsNum :=
  let pbs := pullbacks prices
  if pbs.length = 0 then none
  else
    let sorted := sortAsc pbs
    let q1 := pbs.length / 4
    let q3 := 3 * pbs.length / 4
    let middle := (sorted.drop q1).take (q3 - q1)
    if middle.length = 0 then some JsNum.nan
    else some (JsNum.num (middle.sum / (middle.length : ℚ)))

/-- Minimum of a list of rationals (0 for the empty list, which is only used
on non-empty lists below). -/
def listMin : List ℚ → ℚ
  | [] => 0
  | x :: xs => List.foldl min x xs

/-- Maximum of a list of rationals (0 for the empty list). -/
def listMax : List ℚ → ℚ
  | [] => 0
  | x :: xs => List.foldl max x xs

/-- The claim that the suggestion of the volatility estimator, when produced,
is a number lying between the smallest and the largest detected pullback. -/
def suggestedInRange (prices : List ℚ) : Prop :=
  ∀ v, analyzeRecommended prices = some v →
    ∃ q, v = JsNum.num q ∧ listMin (pullbacks prices) ≤ q ∧
      q ≤ listMax (pullbacks prices)

/-- Example position of the specification: highestClose 100, typical
volatility 5 times multiplier 2, so the threshold is 90; not yet triggered. -/
def exStock : Stock :=
  { symbol := "XMPL", entryPrice := 40, currentPrice := 100, highestClose := 100,
    highestCloseDate := "2026-01-02", typicalVolatility := 5,
    volatilityMultiplier := 2, triggered := true }

/-- The same example position before any breach. -/
def exFresh : Stock := { exStock with triggered := false }

/-- A representable position whose stored prices are negative (such a position
can be admitted by addStock, whose doubling comparison accepts negative
prices); volatility times multiplier is 16, strictly between 0 and 100. -/
def negStock : Stock :=
  { symbol := "NEGX", entryPrice := 1, currentPrice := -4, highestClose := -4,
    highestCloseDate := "2026-01-02", typicalVolatility := 8,
    volatilityMultiplier := 2, triggered := false }

/-- An untriggered position on AAPL with highestClose 100 and threshold 84. -/
def exAapl : Stock :=
  { symbol := "AAPL", entryPrice := 40, currentPrice := 100, highestClose := 100,
    highestCloseDate := "2026-01-02", typicalVolatility := 8,
    volatilityMultiplier := 2, triggered := false }

/-- A portfolio document holding only that AAPL position and an empty alert
history. -/
def exDoc : PortfolioDoc :=
  { stocks := [exAapl], alerts := [], lastUpdate := none, lastUpdated := none }

/-- A batch price map carrying a breaching close of 80 for AAPL. -/
def exMap : List (String × ℚ) := [("AAPL", 80)]

/-- A Finnhub oracle that answers the first attempt for every symbol with an
explicit rate-limit reply and every later attempt with a price of 5: a single
retry after the rate limit would succeed. -/
def rlOracle : String → Nat → FinnResp := fun _ n =>
  match n with
  | 0 => FinnResp.rateLimited
  | _ => FinnResp.ok (JsNum.num 5)

/-- An Alpha Vantage oracle that never has data. -/
def avNoneOracle : String → Nat → AVResp := fun _ _ => AVResp.noQuote

/-- An admission form whose three required fields are non-empty but whose
price fields are non-numeric strings. -/
def badForm : NewStockForm :=
  { symbol := FieldVal.nonNumericStr, entryPrice := FieldVal.nonNumericStr,
    currentPrice := FieldVal.nonNumericStr,
    typicalVolatility := FieldVal.numeric 10,
    volatilityMultiplier := FieldVal.numeric 2 }

/-- An admission form with entry price 50 and current price 100. -/
def form100 : NewStockForm :=
  { symbol := FieldVal.nonNumericStr, entryPrice := FieldVal.numeric 50,
    currentPrice := FieldVal.numeric 100,
    typicalVolatility := FieldVal.numeric 10,
    volatilityMultiplier := FieldVal.numeric 2 }

/-- An admission form with entry price 50 and current price 99. -/
def form99 : NewStockForm :=
  { symbol := FieldVal.nonNumericStr, entryPrice := FieldVal.numeric 50,
    currentPrice := FieldVal.numeric 99,
    typicalVolatility := FieldVal.numeric 10,
    volatilityMultiplier := FieldVal.numeric 2 }

theorem updateStockPrice_of_triggered (s : Stock) (al : List ClientAlert)
    (p : JsNum) (h : s.triggered = true) :
    (updateStockPrice s al p).1.triggered = true ∧
      (updateStockPrice s al p).2 = al := by
  cases p with
  | nan => simpa [updateStockPrice] using h
  | num q =>
    simp only [updateStockPrice]
    split
    · exact ⟨h, rfl⟩
    · split
      · next hc => simp [h] at hc
      · exact ⟨h, rfl⟩

theorem batchUpdateStock_of_triggered (td : String) (s : Stock) (q : Option ℚ)
    (h : s.triggered = true) :
    (batchUpdateStock td s q).1.triggered = true ∧
      (batchUpdateStock td s q).2 = none := by
  cases q with
  | none => simpa [batchUpdateStock] using h
  | some p =>
    simp only [batchUpdateStock]
    by_cases hh : s.highestClose < p
    · simp only [hh, if_true]
      simp [h]
    · simp only [hh, if_false]
      simp [h]

theorem updateStockPrice_alert_count (s : Stock) (al : List ClientAlert)
    (p : JsNum) (h : s.triggered = false) :
    (updateStockPrice s al p).2.length =
      al.length +
        (if (updateStockPrice s al p).1.triggered = true then 1 else 0) := by
  cases p with
  | nan => simp [updateStockPrice, h]
  | num q =>
    simp only [updateStockPrice]
    split
    · simp [h]
    · split
      · simp [Nat.add_comm]
      · simp [h]

theorem batchUpdateStock_emit_iff (td : String) (s : Stock) (q : Option ℚ)
    (h : s.triggered = false) :
    ((batchUpdateStock td s q).2.isSome = true ↔
      (batchUpdateStock td s q).1.triggered = true) := by
  cases q with
  | none => simp [batchUpdateStock, h]
  | some p =>
    simp only [batchUpdateStock]
    by_cases hh : s.highestClose < p
    · simp only [hh, if_true]
      by_cases ht : p ≤ calculateUMPrice p s.typicalVolatility
          s.volatilityMultiplier
      · simp [ht, h]
      · simp [ht, h]
    · simp only [hh, if_false]
      by_cases ht : p ≤ calculateUMPrice s.highestClose s.typicalVolatility
          s.volatilityMultiplier
      · simp [ht, h]
      · simp [ht, h]

theorem callEmits_of_triggered (s : Stock) (c : UpdateCall)
    (h : s.triggered = true) :
    (callEmits s c).1.triggered = true ∧ (callEmits s c).2 = 0 := by
  cases c with
  | client p =>
    have := updateStockPrice_of_triggered s [] p h
    simpa [callEmits] using this
  | batch td q =>
    have := batchUpdateStock_of_triggered td s q h
    simp only [callEmits]
    exact ⟨this.1, by simp [this.2]⟩

theorem callEmits_count (s : Stock) (c : UpdateCall) (h : s.triggered = false) :
    (callEmits s c).2 =
      if (callEmits s c).1.triggered = true then 1 else 0 := by
  cases c with
  | client p =>
    have := updateStockPrice_alert_count s [] p h
    simpa [callEmits] using this
  | batch td q =>
    have := batchUpdateStock_emit_iff td s q h
    simp only [callEmits]
    by_cases hs : (batchUpdateStock td s q).2.isSome = true
    · simp [hs, this.mp hs]
    · have ht : ¬(batchUpdateStock td s q).1.triggered = true := fun hh =>
        hs (this.mpr hh)
      simp [hs, ht]

theorem runCalls_of_triggered (s : Stock) (cs : List UpdateCall)
    (h : s.triggered = true) :
    (runCalls s cs).1.triggered = true ∧ (runCalls s cs).2 = 0 := by
  induction cs generalizing s with
  | nil => exact ⟨h, rfl⟩
  | cons c cs ih =>
    have hc := callEmits_of_triggered s c h
    have hrest := ih (callEmits s c).1 hc.1
    simp only [runCalls]
    exact ⟨hrest.1, by omega⟩

theorem runCalls_count (s : Stock) (cs : List UpdateCall) :
    (runCalls s cs).2 =
      if s.triggered = false ∧ (runCalls s cs).1.triggered = true then 1
      else 0 := by
  induction cs generalizing s with
  | nil => simp [runCalls]
  | cons c cs ih =>
    by_cases h : s.triggered = true
    · have := runCalls_of_triggered s (c :: cs) h
      simp [this.2, h]
    · have hs : s.triggered = false := by
        cases hx : s.triggered
        · rfl
        · exact absurd hx h
      have hc := callEmits_count s c hs
      simp only [runCalls, hs, true_and]
      by_cases ht : (callEmits s c).1.triggered = true
      · have hrest := runCalls_of_triggered (callEmits s c).1 cs ht
        simp [hc, ht, hrest.1, hrest.2]
      · have htf : (callEmits s c).1.triggered = false := by
          cases hx : (callEmits s c).1.triggered
          · rfl
          · exact absurd hx ht
        have hrest := ih (callEmits s c).1
        simp only [htf, true_and] at hrest ⊢
        simp [hc, htf, hrest]

theorem updateStockPrice_high_mono (s : Stock) (al : List ClientAlert)
    (p : JsNum) : s.highestClose ≤ (updateStockPrice s al p).1.highestClose := by
  cases p with
  | nan => simp [updateStockPrice]
  | num q =>
    simp only [updateStockPrice]
    split
    · simp
    · split <;> simp [le_max_left]

theorem batchUpdateStock_high_mono (td : String) (s : Stock) (q : Option ℚ) :
    s.highestClose ≤ (batchUpdateStock td s q).1.highestClose := by
  cases q with
  | none => simp [batchUpdateStock]
  | some p =>
    simp only [batchUpdateStock]
    by_cases hh : s.highestClose < p
    · simp only [hh, if_true]
      by_cases ht : p ≤ calculateUMPrice p s.typicalVolatility
          s.volatilityMultiplier ∧ s.triggered = false
      · simp [ht, le_of_lt hh]
      · simp [ht, le_of_lt hh]
    · simp only [hh, if_false]
      by_cases ht : p ≤ calculateUMPrice s.highestClose s.typicalVolatility
          s.volatilityMultiplier ∧ s.triggered = false
      · simp [ht]
      · simp [ht]

theorem runCalls_high_mono (s : Stock) (cs : List UpdateCall) :
    s.highestClose ≤ (runCalls s cs).1.highestClose := by
  induction cs generalizing s with
  | nil => simp [runCalls]
  | cons c cs ih =>
    refine le_trans ?_ (ih (callEmits s c).1)
    cases c with
    | client p => simpa [callEmits] using updateStockPrice_high_mono s [] p
    | batch td q => simpa [callEmits] using batchUpdateStock_high_mono td s q

theorem max_eq_ite (a b : ℚ) : max a b = if a < b then b else a := by
  rcases lt_or_ge a b with h | h
  · rw [if_pos h, max_eq_right h.le]
  · rw [if_neg (not_lt.mpr h), max_eq_left h]

theorem updateStockPrice_high_eq (s : Stock) (al : List ClientAlert) (q : ℚ)
    (hq : 0 < q) :
    (updateStockPrice s al (JsNum.num q)).1.highestClose =
      if s.highestClose < q then q else s.highestClose := by
  simp only [updateStockPrice, if_neg (not_le.mpr hq)]
  split <;> simp [max_eq_ite]

theorem batchUpdateStock_high_eq (td : String) (s : Stock) (q : ℚ) :
    (batchUpdateStock td s (some q)).1.highestClose =
      if s.highestClose < q then q else s.highestClose := by
  simp only [batchUpdateStock]
  by_cases hh : s.highestClose < q
  · simp only [hh, if_true]
    by_cases ht : q ≤ calculateUMPrice q s.typicalVolatility
        s.volatilityMultiplier ∧ s.triggered = false
    · simp [ht]
    · simp [ht]
  · simp only [hh, if_false]
    by_cases ht : q ≤ calculateUMPrice s.highestClose s.typicalVolatility
        s.volatilityMultiplier ∧ s.triggered = false
    · simp [ht]
    · simp [ht]

/-- Claim C1: the threshold computation, in both its copies (calculateUMPrice
in the batch script and calculateStopLoss in the client), returns
highestClose times (1 minus typicalVolatility times multiplier over 100); in
particular highestClose 150, typicalVolatility 8, multiplier 2 yields 126. -/
theorem threshold_formula :
    (∀ h v m : ℚ,
      calculateUMPrice h v m = h * (1 - v * m / 100) ∧
        calculateStopLoss h v m = h * (1 - v * m / 100)) ∧
    calculateUMPrice 150 8 2 = 126 ∧ calculateStopLoss 150 8 2 = 126 := by
  refine ⟨fun h v m => ⟨rfl, rfl⟩, ?_, ?_⟩ <;>
    norm_num [calculateUMPrice, calculateStopLoss]

/-- Claim C3: highestClose is monotonically non-decreasing under every single
price application (client or batch) and across every sequence of them, and
with a valid price it is raised exactly when the new price strictly exceeds
the stored high: the resulting high equals the new price when
highestClose < newPrice and is unchanged otherwise. -/
theorem highestClose_ratchet :
    (∀ s al p, s.highestClose ≤ (updateStockPrice s al p).1.highestClose) ∧
    (∀ td s q, s.highestClose ≤ (batchUpdateStock td s q).1.highestClose) ∧
    (∀ s cs, s.highestClose ≤ (runCalls s cs).1.highestClose) ∧
    (∀ s al q, 0 < q →
      (updateStockPrice s al (JsNum.num q)).1.highestClose =
        if s.highestClose < q then q else s.highestClose) ∧
    (∀ td s q,
      (batchUpdateStock td s (some q)).1.highestClose =
        if s.highestClose < q then q else s.highestClose) :=
  ⟨updateStockPrice_high_mono, batchUpdateStock_high_mono, runCalls_high_mono,
    updateStockPrice_high_eq, batchUpdateStock_high_eq⟩

/-- Witness for claim C3 at concrete inputs: applying 120 to the example
position (high 100) raises the high to 120; applying 80 leaves it at 100. -/
theorem highestClose_ratchet_witness :
    (updateStockPrice exFresh [] (JsNum.num 120)).1.highestClose =
      (if exFresh.highestClose < 120 then 120 else exFresh.highestClose) ∧
    (batchUpdateStock "2026-01-03" exFresh (some 80)).1.highestClose =
      (if exFresh.highestClose < 80 then 80 else exFresh.highestClose) ∧
    exFresh.highestClose ≤
      (runCalls exFresh [UpdateCall.client (JsNum.num 120)]).1.highestClose :=
  ⟨highestClose_ratchet.2.2.2.1 exFresh [] 120 (by norm_num),
    highestClose_ratchet.2.2.2.2 "2026-01-03" exFresh 80,
    highestClose_ratchet.2.2.1 exFresh [UpdateCall.client (JsNum.num 120)]⟩

/-- Claim C2: triggered is sticky under both price-application paths: an
already-triggered position stays triggered and emits nothing; an untriggered
position emits exactly one alert precisely when this call flips it; and over
any sequence of applications (client or batch, in any order) the total number
of alerts emitted is one exactly when the run flips the flag, zero otherwise,
so the false-to-true transition happens at most once and never reverts. -/
theorem triggered_sticky_one_alert :
    (∀ s al p, s.triggered = true →
      (updateStockPrice s al p).1.triggered = true ∧
        (updateStockPrice s al p).2 = al) ∧
    (∀ td s q, s.triggered = true →
      (batchUpdateStock td s q).1.triggered = true ∧
        (batchUpdateStock td s q).2 = none) ∧
    (∀ s al p, s.triggered = false →
      (updateStockPrice s al p).2.length =
        al.length +
          (if (updateStockPrice s al p).1.triggered = true then 1 else 0)) ∧
    (∀ td s q, s.triggered = false →
      ((batchUpdateStock td s q).2.isSome = true ↔
        (batchUpdateStock td s q).1.triggered = true)) ∧
    (∀ s cs, (runCalls s cs).2 =
      if s.triggered = false ∧ (runCalls s cs).1.triggered = true then 1
      else 0) :=
  ⟨updateStockPrice_of_triggered, batchUpdateStock_of_triggered,
    updateStockPrice_alert_count, batchUpdateStock_emit_iff, runCalls_count⟩

/-- Witness for claim C2 at the specification example: the position with
highestClose 100 and threshold 90.  Already triggered, a further 80 close
leaves it triggered with no new alert on either path; starting untriggered,
the alert count of a single 85 close matches the flip indicator; and the run
applying 85 then 80 emits a total matching its single flip. -/
theorem triggered_sticky_one_alert_witness :
    ((updateStockPrice exStock [] (JsNum.num 80)).1.triggered = true ∧
      (updateStockPrice exStock [] (JsNum.num 80)).2 = []) ∧
    ((batchUpdateStock "2026-01-03" exStock (some 80)).1.triggered = true ∧
      (batchUpdateStock "2026-01-03" exStock (some 80)).2 = none) ∧
    ((updateStockPrice exFresh [] (JsNum.num 85)).2.length =
      List.length ([] : List ClientAlert) +
        (if (updateStockPrice exFresh [] (JsNum.num 85)).1.triggered = true
          then 1 else 0)) ∧
    ((batchUpdateStock "2026-01-03" exFresh (some 85)).2.isSome = true ↔
      (batchUpdateStock "2026-01-03" exFresh (some 85)).1.triggered = true) ∧
    ((runCalls exFresh
        [UpdateCall.client (JsNum.num 85), UpdateCall.client (JsNum.num 80)]).2 =
      if exFresh.triggered = false ∧
          (runCalls exFresh [UpdateCall.client (JsNum.num 85),
            UpdateCall.client (JsNum.num 80)]).1.triggered = true then 1
      else 0) :=
  ⟨triggered_sticky_one_alert.1 exStock [] (JsNum.num 80) rfl,
    triggered_sticky_one_alert.2.1 "2026-01-03" exStock (some 80) rfl,
    triggered_sticky_one_alert.2.2.1 exFresh [] (JsNum.num 85) rfl,
    triggered_sticky_one_alert.2.2.2.1 "2026-01-03" exFresh (some 85) rfl,
    triggered_sticky_one_alert.2.2.2.2 exFresh
      [UpdateCall.client (JsNum.num 85), UpdateCall.client (JsNum.num 80)]⟩

theorem max_max_self (a b : ℚ) : max (max a b) b = max a b := by
  rw [max_assoc, max_self]

theorem updateStockPrice_idem (s : Stock) (al : List ClientAlert) (p : JsNum) :
    updateStockPrice (updateStockPrice s al p).1 (updateStockPrice s al p).2 p =
      updateStockPrice s al p := by
  cases p with
  | nan => simp [updateStockPrice]
  | num q =>
    by_cases hq : q ≤ 0
    · simp [updateStockPrice, if_pos hq]
    · simp only [updateStockPrice, if_neg hq]
      have hmx : max (max s.highestClose q) q = max s.highestClose q :=
        max_max_self _ _
      by_cases hc : q ≤ calculateStopLoss (max s.highestClose q)
          s.typicalVolatility s.volatilityMultiplier ∧ s.triggered = false
      · simp only [hc, if_true]
        simp [if_neg hq, hmx]
      · simp only [hc, if_false]
        simp only [if_neg hq, hmx]
        simp [hc]

theorem batchUpdateStock_idem (td : String) (s : Stock) (q : Option ℚ) :
    batchUpdateStock td (batchUpdateStock td s q).1 q =
      ((batchUpdateStock td s q).1, none) := by
  cases q with
  | none => simp [batchUpdateStock]
  | some p =>
    simp only [batchUpdateStock]
    by_cases hh : s.highestClose < p
    · simp only [hh, if_true]
      by_cases ht : p ≤ calculateUMPrice p s.typicalVolatility
          s.volatilityMultiplier ∧ s.triggered = false
      · simp only [ht, if_true]
        simp [lt_irrefl]
      · simp only [ht, if_false]
        simp [lt_irrefl, ht]
    · simp only [hh, if_false]
      by_cases ht : p ≤ calculateUMPrice s.highestClose s.typicalVolatility
          s.volatilityMultiplier ∧ s.triggered = false
      · simp only [ht, if_true]
        simp [hh]
      · simp only [ht, if_false]
        simp [hh, ht]

/-- Claim C4: price application is idempotent for a repeated identical input
on both paths: re-applying the same price to the resulting position yields the
same position, the client call adds no second alert (its alert list is exactly
the list after the first call) and the batch call emits no triggeredStocks
entry, and the high-water mark does not move again. -/
theorem apply_price_idempotent :
    (∀ s al p,
      updateStockPrice (updateStockPrice s al p).1 (updateStockPrice s al p).2
          p = updateStockPrice s al p) ∧
    (∀ td s q,
      batchUpdateStock td (batchUpdateStock td s q).1 q =
        ((batchUpdateStock td s q).1, none)) :=
  ⟨updateStockPrice_idem, batchUpdateStock_idem⟩

theorem threshold_lt_price (q v m : ℚ) (hq : 0 < q) (h1 : 0 < v * m) :
    calculateUMPrice q v m < q := by
  have hpos : 0 < q * (v * m) := mul_pos hq h1
  have hdiv : 0 < q * (v * m) / 100 := by positivity
  calc calculateUMPrice q v m = q - q * (v * m) / 100 := by
        simp only [calculateUMPrice]; ring
    _ < q := by linarith

/-- Claim C10 counterexample: a representable position whose stored prices
are negative (admissible through addStock, whose doubling comparison does not
reject negative prices), with volatility times multiplier equal to 16.  The
batch update applies the fetched close -2, which strictly exceeds the stored
high -4, yet flips triggered and records a triggeredStocks entry, because the
recomputed threshold -1.68 sits above the negative new high. -/
theorem new_high_trigger_counterexample :
    0 < negStock.typicalVolatility * negStock.volatilityMultiplier ∧
    negStock.typicalVolatility * negStock.volatilityMultiplier < 100 ∧
    negStock.highestClose < -2 ∧ negStock.triggered = false ∧
    (batchUpdateStock "2026-01-03" negStock (some (-2))).1.triggered = true ∧
    (batchUpdateStock "2026-01-03" negStock (some (-2))).2.isSome = true := by
  norm_num [negStock, batchUpdateStock, calculateUMPrice]

/-- Claim C10 amended: with volatility times multiplier strictly between 0
and 100, a new price strictly above the stored high never flips triggered and
never emits an alert on the client path (whose guard rejects non-positive
prices outright), and likewise on the batch path whenever the fetched price
is positive; the batch path lacks that guard, so the positivity hypothesis is
needed there, as the counterexample shows. -/
theorem new_high_never_triggers :
    (∀ s al q, 0 < s.typicalVolatility * s.volatilityMultiplier →
      s.typicalVolatility * s.volatilityMultiplier < 100 →
      s.highestClose < q →
      (updateStockPrice s al (JsNum.num q)).1.triggered = s.triggered ∧
        (updateStockPrice s al (JsNum.num q)).2 = al) ∧
    (∀ td s q, 0 < s.typicalVolatility * s.volatilityMultiplier →
      s.typicalVolatility * s.volatilityMultiplier < 100 →
      s.highestClose < q → 0 < q →
      (batchUpdateStock td s (some q)).1.triggered = s.triggered ∧
        (batchUpdateStock td s (some q)).2 = none) := by
  constructor
  · intro s al q h1 h2 hlt
    by_cases hq : q ≤ 0
    · simp [updateStockPrice, if_pos hq]
    · have hq0 : 0 < q := lt_of_not_ge hq
      have hsl : calculateStopLoss q s.typicalVolatility
          s.volatilityMultiplier < q :=
        threshold_lt_price q _ _ hq0 h1
      have hmx : max s.highestClose q = q := max_eq_right hlt.le
      simp only [updateStockPrice, if_neg hq, hmx]
      have hcond : ¬(q ≤ calculateStopLoss q s.typicalVolatility
          s.volatilityMultiplier ∧ s.triggered = false) := fun hc =>
        absurd hc.1 (not_le.mpr hsl)
      simp [hcond]
  · intro td s q h1 h2 hlt hq0
    have hum : calculateUMPrice q s.typicalVolatility
        s.volatilityMultiplier < q :=
      threshold_lt_price q _ _ hq0 h1
    simp only [batchUpdateStock, hlt, if_true]
    have hcond : ¬(q ≤ calculateUMPrice q s.typicalVolatility
        s.volatilityMultiplier ∧ s.triggered = false) := fun hc =>
      absurd hc.1 (not_le.mpr hum)
    simp [hcond]

/-- Witness for the amended claim C10: the untriggered example position with
high 100 and threshold 90 stays untriggered, with no alert, when 120 is
applied on either path. -/
theorem new_high_never_triggers_witness :
    ((updateStockPrice exFresh [] (JsNum.num 120)).1.triggered =
        exFresh.triggered ∧
      (updateStockPrice exFresh [] (JsNum.num 120)).2 = []) ∧
    ((batchUpdateStock "2026-01-03" exFresh (some 120)).1.triggered =
        exFresh.triggered ∧
      (batchUpdateStock "2026-01-03" exFresh (some 120)).2 = none) :=
  ⟨new_high_never_triggers.1 exFresh [] 120 (by norm_num [exFresh, exStock])
      (by norm_num [exFresh, exStock]) (by norm_num [exFresh, exStock]),
    new_high_never_triggers.2 "2026-01-03" exFresh 120
      (by norm_num [exFresh, exStock]) (by norm_num [exFresh, exStock])
      (by norm_num [exFresh, exStock]) (by norm_num)⟩

/-- Claim C5 counterexample: with an oracle that rate-limits the one symbol
AAPL on the first attempt and would deliver a price of 5 on any later attempt,
and no secondary key configured, the fetch loop produces an empty price map:
the symbol is left unfetched for the run even though a single retry after the
rate limit would have succeeded, so no cooldown-and-retry of the same symbol
exists. -/
theorem rate_limit_counterexample :
    buildPriceMap ["AAPL"] rlOracle false avNoneOracle = [] ∧
    fetchPriceFinnhub (rlOracle "AAPL" 1) = some (JsNum.num 5) := by
  constructor
  · simp [buildPriceMap, rlOracle, avNoneOracle, fetchPrice, fetchPriceFinnhub,
      jsTruthyOpt]
  · norm_num [rlOracle, fetchPriceFinnhub, JsNum.truthy, jsLt]

/-- Claim C5 amended: the batch job performs exactly one Finnhub attempt and
at most one Alpha Vantage attempt per symbol per run: the price map depends
only on the attempt-0 replies of both oracles, and a symbol whose attempt-0
Finnhub reply is a rate limit is absent from the price map when no secondary
key is configured, whatever the providers would answer on a retry. -/
theorem no_rate_limit_retry :
    (∀ (symbols : List String) (fh fh2 : String → Nat → FinnResp)
        (avKey : Bool) (av av2 : String → Nat → AVResp),
      (∀ sym, fh sym 0 = fh2 sym 0) → (∀ sym, av sym 0 = av2 sym 0) →
      buildPriceMap symbols fh avKey av = buildPriceMap symbols fh2 avKey av2) ∧
    (∀ (symbols : List String) (sym : String) (fh : String → Nat → FinnResp)
        (av : String → Nat → AVResp),
      fh sym 0 = FinnResp.rateLimited →
      List.lookup sym (buildPriceMap symbols fh false av) = none) := by
  constructor
  · intro symbols fh fh2 avKey av av2 h1 h2
    induction symbols with
    | nil => rfl
    | cons s rest ih =>
      simp only [buildPriceMap, h1 s, h2 s, ih]
  · intro symbols sym fh av hrl
    induction symbols with
    | nil => rfl
    | cons s rest ih =>
      simp only [buildPriceMap]
      by_cases hs : s = sym
      · subst hs
        rw [hrl]
        simp only [fetchPrice, fetchPriceFinnhub, jsTruthyOpt, Bool.false_eq_true,
          if_false, List.nil_append]
        exact ih
      · cases hfp : fetchPrice (fh s 0) false (av s 0) with
        | none => simpa using ih
        | some p =>
          have hbeq : (sym == s) = false := by
            simpa using fun he => hs he.symm
          simp [List.lookup, hbeq, ih]

/-- Witness for the amended claim C5: with the concrete rate-limiting oracle,
the price map of a run over the single symbol AAPL ignores every reply past
attempt 0 and contains no entry for AAPL. -/
theorem no_rate_limit_retry_witness :
    buildPriceMap ["AAPL"] rlOracle false avNoneOracle =
      buildPriceMap ["AAPL"] (fun s _ => rlOracle s 0) false avNoneOracle ∧
    List.lookup "AAPL" (buildPriceMap ["AAPL"] rlOracle false avNoneOracle) =
      none :=
  ⟨no_rate_limit_retry.1 ["AAPL"] rlOracle (fun s _ => rlOracle s 0) false
      avNoneOracle avNoneOracle (fun _ => rfl) (fun _ => rfl),
    no_rate_limit_retry.2 ["AAPL"] "AAPL" rlOracle avNoneOracle rfl⟩

theorem upper_AAPL : jsToUpper "AAPL" = "AAPL" := rfl

/-- Claim C6 counterexample: the run over the example document (one
untriggered AAPL position, high 100, threshold 84, empty alert history) with
the fetched close 80 newly triggers the position and records a
triggeredStocks entry, and the document written back carries the updated
stocks and the server timestamp, but its stored alerts list is still empty:
the alerts emitted during the run are not persisted by the batch job. -/
theorem batch_write_no_alerts_counterexample :
    ((updateUserPortfolio "2026-01-03" "ts-1" exDoc exMap).2.1).length = 1 ∧
    (updateUserPortfolio "2026-01-03" "ts-1" exDoc exMap).1.stocks.map
        Stock.triggered = [true] ∧
    (updateUserPortfolio "2026-01-03" "ts-1" exDoc exMap).1.lastUpdated =
      some "ts-1" ∧
    (updateUserPortfolio "2026-01-03" "ts-1" exDoc exMap).1.alerts = [] := by
  norm_num [updateUserPortfolio, exDoc, exMap, exAapl, lookupPrice,
    List.lookup, upper_AAPL, batchUpdateStock, calculateUMPrice,
    List.filterMap_cons]

/-- Claim C6 amended: after a batch run, for every document in which some
stored symbol was fetched, the record written back holds exactly the updated
positions and the server-side timestamp, while the stored alerts list is left
unchanged: alerts for newly triggered positions are only pushed to the
triggeredStocks list that drives the notification emails, never persisted. -/
theorem batch_write_contents :
    ∀ (today ts : String) (doc : PortfolioDoc) (pm : List (String × ℚ)),
      (∃ s ∈ doc.stocks, (lookupPrice pm s.symbol).isSome = true) →
      (updateUserPortfolio today ts doc pm).1.stocks =
          doc.stocks.map
            (fun s => (batchUpdateStock today s (lookupPrice pm s.symbol)).1) ∧
        (updateUserPortfolio today ts doc pm).1.lastUpdated = some ts ∧
        (updateUserPortfolio today ts doc pm).1.alerts = doc.alerts := by
  intro today ts doc pm hex
  have hupd : (doc.stocks.any fun s => (lookupPrice pm s.symbol).isSome) =
      true := by
    rcases hex with ⟨s, hs, hsome⟩
    exact List.any_eq_true.mpr ⟨s, hs, hsome⟩
  simp [updateUserPortfolio, hupd, List.map_map, Function.comp]

/-- Witness for the amended claim C6 at the example document and price map:
the written stocks are the batch-updated ones, the server timestamp is set
and the alerts list is carried over unchanged. -/
theorem batch_write_contents_witness :
    (updateUserPortfolio "2026-01-03" "ts-1" exDoc exMap).1.stocks =
        exDoc.stocks.map
          (fun s =>
            (batchUpdateStock "2026-01-03" s (lookupPrice exMap s.symbol)).1) ∧
      (updateUserPortfolio "2026-01-03" "ts-1" exDoc exMap).1.lastUpdated =
        some "ts-1" ∧
      (updateUserPortfolio "2026-01-03" "ts-1" exDoc exMap).1.alerts =
        exDoc.alerts :=
  batch_write_contents "2026-01-03" "ts-1" exDoc exMap
    ⟨exAapl, by simp [exDoc],
      by simp [lookupPrice, exMap, exAapl, upper_AAPL, List.lookup]⟩

/-- Claim C7 counterexample: an admission request whose price fields are
non-empty, non-numeric strings is not rejected: parseFloat yields NaN for
both prices, the doubling comparison current < entry * 2 is false on NaN, and
the position is admitted, with NaN stored as its entry price. -/
theorem nonNumeric_admission_counterexample :
    (addStock badForm []).isSome = true ∧
    ((addStock badForm []).getD []).map RawStock.entryPrice = [JsNum.nan] := by
  constructor <;> rfl

/-- Claim C7 amended: addStock rejects, before any mutation, every request
with an empty required field, and, for numeric price inputs, admits the
position exactly when currentPrice is at least twice entryPrice; a non-empty
non-numeric price input, however, is admitted (see the counterexample), so
only the empty-field and doubling checks are enforced. -/
theorem admission_rule :
    (∀ form stocks, (form.symbol.truthy = false ∨
        form.entryPrice.truthy = false ∨ form.currentPrice.truthy = false) →
      addStock form stocks = none) ∧
    (∀ form stocks e c, form.symbol.truthy = true →
      form.entryPrice = FieldVal.numeric e →
      form.currentPrice = FieldVal.numeric c →
      (2 * e ≤ c → (addStock form stocks).isSome = true) ∧
        (c < 2 * e → addStock form stocks = none)) := by
  constructor
  · intro form stocks h
    rcases h with h | h | h <;> simp [addStock, h]
  · intro form stocks e c hsym hE hC
    have h2 : (FieldVal.numeric e).truthy = true := rfl
    have h3 : (FieldVal.numeric c).truthy = true := rfl
    constructor
    · intro hle
      have hlt : ¬(c < e * 2) := by
        rw [mul_comm]
        exact not_lt.mpr hle
      simp [addStock, hsym, hE, hC, parseFloatField, jsLt, jsMulTwo, hlt,
        h2, h3]
    · intro hgt
      have hlt : c < e * 2 := by rw [mul_comm]; exact hgt
      simp [addStock, hsym, hE, hC, parseFloatField, jsLt, jsMulTwo, hlt,
        h2, h3]

/-- Witness for the amended claim C7 at the example of the specification:
entry price 50 with current price 100 is admitted, with current price 99 it
is rejected. -/
theorem admission_rule_witness :
    (addStock form100 []).isSome = true ∧ addStock form99 [] = none :=
  ⟨(admission_rule.2 form100 [] 50 100 rfl rfl rfl).1 (by norm_num),
    (admission_rule.2 form99 [] 50 99 rfl rfl rfl).2 (by norm_num)⟩

/-- Claim C8 counterexample: the fetch pipeline resolves a negative Alpha
Vantage price (the guard tests the truthiness of the price string, not its
sign, and a non-zero number is truthy), and the batch per-position update
applies it with no validity check: the position with high 100 and threshold
84 receives currentPrice -5 and is triggered, so the non-positive-price
rejection does not hold on the batch path. -/
theorem negative_price_applied_counterexample :
    fetchPrice FinnResp.rateLimited true
        (AVResp.quote (some (JsNum.num (-5)))) = some (JsNum.num (-5)) ∧
    (batchUpdateStock "2026-01-03" exAapl (some (-5))).1.currentPrice = -5 ∧
    (batchUpdateStock "2026-01-03" exAapl (some (-5))).1.triggered = true ∧
    (batchUpdateStock "2026-01-03" exAapl (some (-5))).2.isSome = true := by
  refine ⟨?_, ?_, ?_, ?_⟩ <;>
    norm_num [fetchPrice, fetchPriceFinnhub, fetchPriceAlphaVantage,
      jsTruthyOpt, JsNum.truthy, batchUpdateStock, exAapl, calculateUMPrice]

theorem truthy_shape (v : JsNum) (h : v.truthy = true) :
    ∃ q, v = JsNum.num q ∧ q ≠ 0 := by
  cases v with
  | nan => simp [JsNum.truthy] at h
  | num q => exact ⟨q, rfl, by simpa [JsNum.truthy] using h⟩

/-- Claim C8 amended: the client updateStockPrice rejects NaN and every
non-positive price with no mutation at all; the batch path has no such guard
and applies whatever the fetch pipeline produced, but that pipeline only ever
resolves a non-zero number (never NaN, never 0) since both providers return a
price only under a truthiness check; a negative Alpha Vantage price passes
that check, as the counterexample shows. -/
theorem reject_nonpositive_price :
    (∀ s al, updateStockPrice s al JsNum.nan = (s, al)) ∧
    (∀ s al q, q ≤ 0 → updateStockPrice s al (JsNum.num q) = (s, al)) ∧
    (∀ fh key av v, fetchPrice fh key av = some v →
      ∃ q, v = JsNum.num q ∧ q ≠ 0) := by
  refine ⟨fun s al => rfl, fun s al q hq => by simp [updateStockPrice, hq],
    fun fh key av v h => ?_⟩
  simp only [fetchPrice] at h
  by_cases h1 : jsTruthyOpt (fetchPriceFinnhub fh) = true
  · rw [if_pos h1] at h
    rw [h] at h1
    exact truthy_shape v (by simpa [jsTruthyOpt] using h1)
  · rw [if_neg h1] at h
    cases key with
    | false => simp at h
    | true =>
      simp only [if_true] at h
      by_cases h2 : jsTruthyOpt (fetchPriceAlphaVantage av) = true
      · rw [if_pos h2] at h
        rw [h] at h2
        exact truthy_shape v (by simpa [jsTruthyOpt] using h2)
      · rw [if_neg h2] at h
        simp at h

/-- Witness for the amended claim C8: applying -3 or NaN to the untriggered
example position changes nothing, and a fetchPrice reply of 7 is a non-zero
number. -/
theorem reject_nonpositive_price_witness :
    updateStockPrice exFresh [] (JsNum.num (-3)) = (exFresh, []) ∧
    updateStockPrice exFresh [] JsNum.nan = (exFresh, []) ∧
    (∃ q, JsNum.num 7 = JsNum.num q ∧ q ≠ 0) :=
  ⟨reject_nonpositive_price.2.1 exFresh [] (-3) (by norm_num),
    reject_nonpositive_price.1 exFresh [],
    reject_nonpositive_price.2.2 (FinnResp.ok (JsNum.num 7)) false
      AVResp.noQuote (JsNum.num 7)
      (by norm_num [fetchPrice, fetchPriceFinnhub, jsTruthyOpt, JsNum.truthy,
        jsLt])⟩

theorem mem_insertSorted (a x : ℚ) (l : List ℚ) :
    x ∈ insertSorted a l → x = a ∨ x ∈ l := by
  induction l with
  | nil => simp [insertSorted]
  | cons y ys ih =>
    simp only [insertSorted]
    by_cases hle : a ≤ y
    · rw [if_pos hle]
      intro h
      rcases List.mem_cons.mp h with h | h
      · exact Or.inl h
      · exact Or.inr h
    · rw [if_neg hle]
      intro h
      rcases List.mem_cons.mp h with h | h
      · exact Or.inr (by simp [h])
      · rcases ih h with h | h
        · exact Or.inl h
        · exact Or.inr (by simp [h])

theorem length_insertSorted (a : ℚ) (l : List ℚ) :
    (insertSorted a l).length = l.length + 1 := by
  induction l with
  | nil => rfl
  | cons y ys ih =>
    simp only [insertSorted]
    by_cases hle : a ≤ y
    · simp [hle]
    · simp [hle, ih]

theorem mem_sortAsc (x : ℚ) (l : List ℚ) : x ∈ sortAsc l → x ∈ l := by
  induction l with
  | nil => simp [sortAsc]
  | cons y ys ih =>
    intro h
    rcases mem_insertSorted y x (sortAsc ys) h with h | h
    · simp [h]
    · simp [ih h]

theorem length_sortAsc (l : List ℚ) : (sortAsc l).length = l.length := by
  induction l with
  | nil => rfl
  | cons y ys ih => simp [sortAsc, length_insertSorted, ih]

theorem foldl_min_le (l : List ℚ) (a : ℚ) : List.foldl min a l ≤ a := by
  induction l generalizing a with
  | nil => simp
  | cons x xs ih => exact le_trans (ih (min a x)) (min_le_left a x)

theorem foldl_min_le_mem (l : List ℚ) (a x : ℚ) (hx : x ∈ l) :
    List.foldl min a l ≤ x := by
  induction l generalizing a with
  | nil => simp at hx
  | cons y ys ih =>
    rcases List.mem_cons.mp hx with h | h
    · subst h
      exact le_trans (foldl_min_le ys (min a x)) (min_le_right a x)
    · exact ih (min a y) h

theorem le_foldl_max (l : List ℚ) (a : ℚ) : a ≤ List.foldl max a l := by
  induction l generalizing a with
  | nil => simp
  | cons x xs ih => exact le_trans (le_max_left a x) (ih (max a x))

theorem mem_le_foldl_max (l : List ℚ) (a x : ℚ) (hx : x ∈ l) :
    x ≤ List.foldl max a l := by
  induction l generalizing a with
  | nil => simp at hx
  | cons y ys ih =>
    rcases List.mem_cons.mp hx with h | h
    · subst h
      exact le_trans (le_max_right a x) (le_foldl_max ys (max a x))
    · exact ih (max a y) h

theorem listMin_le (l : List ℚ) (x : ℚ) (hx : x ∈ l) : listMin l ≤ x := by
  cases l with
  | nil => simp at hx
  | cons y ys =>
    rcases List.mem_cons.mp hx with h | h
    · subst h
      exact foldl_min_le ys x
    · exact foldl_min_le_mem ys y x h

theorem le_listMax (l : List ℚ) (x : ℚ) (hx : x ∈ l) : x ≤ listMax l := by
  cases l with
  | nil => simp at hx
  | cons y ys =>
    rcases List.mem_cons.mp hx with h | h
    · subst h
      exact le_foldl_max ys x
    · exact mem_le_foldl_max ys y x h

theorem mul_length_le_sum (l : List ℚ) (a : ℚ) (h : ∀ x ∈ l, a ≤ x) :
    a * l.length ≤ l.sum := by
  induction l with
  | nil => simp
  | cons x xs ih =>
    have hx := h x (by simp)
    have hxs := ih (fun y hy => h y (by simp [hy]))
    simp only [List.sum_cons, List.length_cons]
    push_cast
    linarith [hxs, hx]

theorem sum_le_mul_length (l : List ℚ) (b : ℚ) (h : ∀ x ∈ l, x ≤ b) :
    l.sum ≤ b * l.length := by
  induction l with
  | nil => simp
  | cons x xs ih =>
    have hx := h x (by simp)
    have hxs := ih (fun y hy => h y (by simp [hy]))
    simp only [List.sum_cons, List.length_cons]
    push_cast
    linarith [hxs, hx]

theorem le_mean (l : List ℚ) (a : ℚ) (hne : l ≠ []) (h : ∀ x ∈ l, a ≤ x) :
    a ≤ l.sum / (l.length : ℚ) := by
  have hlen : 0 < (l.length : ℚ) := by
    exact_mod_cast List.length_pos.mpr hne
  rw [le_div_iff₀ hlen]
  exact mul_length_le_sum l a h

theorem mean_le (l : List ℚ) (b : ℚ) (hne : l ≠ []) (h : ∀ x ∈ l, x ≤ b) :
    l.sum / (l.length : ℚ) ≤ b := by
  have hlen : 0 < (l.length : ℚ) := by
    exact_mod_cast List.length_pos.mpr hne
  rw [div_le_iff₀ hlen]
  exact sum_le_mul_length l b h

/-- Claim C9 counterexample: the two-day series 100, 90 has exactly one
pullback (10 percent), the middle-quartile slice from floor(0.25) to
floor(0.75) is empty, and the suggested typicalVolatility is the JavaScript
value 0 / 0, that is NaN, which is not a number within the pullback range. -/
theorem volatility_nan_counterexample : ¬ suggestedInRange [100, 90] := by
  intro h
  have hval : analyzeRecommended [100, 90] = some JsNum.nan := by
    norm_num [analyzeRecommended, pullbacks, pullbacksAux, sortAsc,
      insertSorted]
  obtain ⟨q, hq, -, -⟩ := h JsNum.nan hval
  exact JsNum.noConfusion hq

/-- Claim C9 amended: for every positive close-price series in which at least
two pullbacks are detected, the estimator produces a numeric suggestion and
it lies between the smallest and the largest detected pullback; when exactly
one pullback is detected the middle-quartile slice is empty and the
suggestion is NaN instead (see the counterexample). -/
theorem volatility_suggestion_in_range :
    ∀ prices : List ℚ, (∀ p ∈ prices, 0 < p) →
      2 ≤ (pullbacks prices).length →
      ∃ q, analyzeRecommended prices = some (JsNum.num q) ∧
        listMin (pullbacks prices) ≤ q ∧ q ≤ listMax (pullbacks prices) := by
  intro prices _hpos hlen
  have hq13 : (pullbacks prices).length / 4 <
      3 * (pullbacks prices).length / 4 := by omega
  have hq3 : 3 * (pullbacks prices).length / 4 ≤
      (pullbacks prices).length := by omega
  have hlen_mid :
      (((sortAsc (pullbacks prices)).drop ((pullbacks prices).length / 4)).take
          (3 * (pullbacks prices).length / 4 -
            (pullbacks prices).length / 4)).length =
        3 * (pullbacks prices).length / 4 - (pullbacks prices).length / 4 := by
    rw [List.length_take, List.length_drop, length_sortAsc]
    omega
  have hmid_ne :
      ((sortAsc (pullbacks prices)).drop ((pullbacks prices).length / 4)).take
          (3 * (pullbacks prices).length / 4 -
            (pullbacks prices).length / 4) ≠ [] := by
    intro h
    rw [h] at hlen_mid
    simp at hlen_mid
    omega
  have hmem : ∀ x ∈ ((sortAsc (pullbacks prices)).drop
        ((pullbacks prices).length / 4)).take
        (3 * (pullbacks prices).length / 4 - (pullbacks prices).length / 4),
      x ∈ pullbacks prices := fun x hx =>
    mem_sortAsc x (pullbacks prices)
      (List.mem_of_mem_drop (List.mem_of_mem_take hx))
  refine ⟨(((sortAsc (pullbacks prices)).drop
        ((pullbacks prices).length / 4)).take
        (3 * (pullbacks prices).length / 4 -
          (pullbacks prices).length / 4)).sum /
      ((((sortAsc (pullbacks prices)).drop
        ((pullbacks prices).length / 4)).take
        (3 * (pullbacks prices).length / 4 -
          (pullbacks prices).length / 4)).length : ℚ), ?_, ?_, ?_⟩
  · simp only [analyzeRecommended]
    rw [if_neg (by omega), if_neg (by rw [hlen_mid]; omega)]
  · exact le_mean _ _ hmid_ne fun x hx =>
      listMin_le (pullbacks prices) x (hmem x hx)
  · exact mean_le _ _ hmid_ne fun x hx =>
      le_listMax (pullbacks prices) x (hmem x hx)

/-- Witness for the amended claim C9: the series 100, 90, 95, 80 has the
three pullbacks 10, 5 and 20, so the estimator suggests a number between its
smallest and largest pullback. -/
theorem volatility_suggestion_in_range_witness :
    ∃ q, analyzeRecommended [100, 90, 95, 80] = some (JsNum.num q) ∧
      listMin (pullbacks [100, 90, 95, 80]) ≤ q ∧
        q ≤ listMax (pullbacks [100, 90, 95, 80]) :=
  volatility_suggestion_in_range [100, 90, 95, 80]
    (by norm_num)
    (by norm_num [pullbacks, pullbacksAux])

end UpsideMaximizer
